import Mathlib

/-!
Verification of the frame-lifecycle and resource-synchronization engine of
`src/main.cpp` (a Vulkan-hpp/SDL textured-model renderer).  Each C++ routine
that the properties concern is shallowly embedded as an executable Lean
definition; machine integers are modelled as `Nat` (all values involved are
non-negative and far from overflow), GPU handles are dropped, and fallible
routines return `Option` (`none` models a thrown exception).
-/

namespace VulkanEngine

/-! ## Memory-type selection (`findMemoryType`, src/main.cpp lines 1148-1157)

The C++ loops `i` from `0` to `memoryTypeCount - 1` and returns the first `i`
with `typeFilter & (1 << i)` non-zero and
`(memoryTypes[i].propertyFlags & properties) == properties`; if the loop
finishes it throws ("failed to find suitable memory type!", modelled as
`none`).  `memoryTypes` is embedded as the list of the property-flag bitmasks
of the device's memory types, in index order. -/

/-- The loop condition of `findMemoryType` at index `i` for a memory type with
property flags `flags`: bit `i` of `typeFilter` is set, and `flags` is a
superset of the requested `properties` bits. -/
def memTypeSuitable (typeFilter properties i flags : Nat) : Prop :=
  typeFilter &&& (1 <<< i) ≠ 0 ∧ flags &&& properties = properties

instance (typeFilter properties i flags : Nat) :
    Decidable (memTypeSuitable typeFilter properties i flags) :=
  inferInstanceAs (Decidable (_ ∧ _))

/-- Loop of `findMemoryType`, scanning the memory types from index `i`. -/
def findMemoryTypeAux (typeFilter properties i : Nat) : List Nat → Option Nat
  | [] => none
  | flags :: rest =>
      if memTypeSuitable typeFilter properties i flags then some i
      else findMemoryTypeAux typeFilter properties (i + 1) rest

/-- Embedding of `findMemoryType(typeFilter, properties)`: scan the device's
memory types in index order, return the first index whose type bit is set in
`typeFilter` and whose property flags contain all bits of `properties`;
`none` models the thrown `NoSuitableMemoryTypeError`. -/
def findMemoryType (memoryTypes : List Nat) (typeFilter properties : Nat) :
    Option Nat :=
  findMemoryTypeAux typeFilter properties 0 memoryTypes

/-! ## Mipmap generation (`generateMipmaps`, src/main.cpp lines 727-804)

The loop `for (uint32_t i = 1; i < mipLevels; i++)` keeps `mipWidth`/`mipHeight`
(initialised to `texWidth`/`texHeight`) and records, per iteration, one blit of
level `i - 1` (source extent `mipWidth × mipHeight`) into level `i`
(destination extent `(mipWidth > 1 ? mipWidth / 2 : 1) × (mipHeight > 1 ?
mipHeight / 2 : 1)`), then halves each of `mipWidth`/`mipHeight` while it is
greater than `1`.  The embedding collects the sequence of blits the loop
records into the one-shot command buffer, in order. -/

/-- One recorded blit: the source mip level is `level - 1`, the destination
mip level is `level`; `srcW × srcH` and `dstW × dstH` are the corresponding
`srcOffsets[1]` / `dstOffsets[1]` extents. -/
structure MipBlit where
  level : Nat
  srcW : Nat
  srcH : Nat
  dstW : Nat
  dstH : Nat
deriving DecidableEq, Repr

/-- The `generateMipmaps` loop body, with `fuel` remaining iterations,
loop counter `i`, and current `mipWidth`/`mipHeight`. -/
def genMipBlitsAux : Nat → Nat → Nat → Nat → List MipBlit
  | 0, _, _, _ => []
  | fuel + 1, i, mipWidth, mipHeight =>
      { level := i, srcW := mipWidth, srcH := mipHeight,
        dstW := if 1 < mipWidth then mipWidth / 2 else 1,
        dstH := if 1 < mipHeight then mipHeight / 2 else 1 } ::
      genMipBlitsAux fuel (i + 1)
        (if 1 < mipWidth then mipWidth / 2 else mipWidth)
        (if 1 < mipHeight then mipHeight / 2 else mipHeight)

/-- Embedding of `generateMipmaps(image, format, texWidth, texHeight,
mipLevels)`: the list of blits recorded by the loop, which runs for
`i = 1, ..., mipLevels - 1` starting from `mipWidth = texWidth`,
`mipHeight = texHeight`. -/
def generateMipmapsBlits (texWidth texHeight mipLevels : Nat) : List MipBlit :=
  genMipBlitsAux (mipLevels - 1) 1 texWidth texHeight

/-! ## Mip level count (`createTextureImage`, src/main.cpp line 695)

The source computes
`mipLevels = static_cast<uint32_t>(std::floor(std::log2(std::max(texWidth,
texHeight)))) + 1` in double precision; for the positive integer inputs a
loaded texture yields, this is the integer base-2 logarithm, embedded exactly
as `Nat.log2`. -/

/-- Embedding of the `mipLevels` computation of `createTextureImage`. -/
def mipLevelsOf (texWidth texHeight : Nat) : Nat :=
  Nat.log2 (max texWidth texHeight) + 1

/-! ## Model loading (`loadModel`, src/main.cpp lines 935-971)

For each index of each shape, the source builds a `Vertex` (position and
texture coordinate fetched from the OBJ attributes, colour fixed to white),
then deduplicates through `std::unordered_map<Vertex, uint32_t>
uniqueVertices` keyed by `Vertex::operator==` (exact equality of `pos`,
`color` and `texCoord`, src/main.cpp lines 122-125): a vertex not yet in the
map is appended to `vertices` and mapped to its position; in either case the
mapped position is appended to `indices`.  The embedding takes the stream of
per-index source vertices as input and represents the map as an association
list; vertex coordinates are modelled by integers since only exact field
equality is ever used on them. -/

/-- A mesh vertex: position, colour, texture coordinate.  The float
components of the source are modelled as integers; `loadModel` only compares
them for exact equality. -/
structure Vertex where
  pos : Int × Int × Int
  color : Int × Int × Int
  texCoord : Int × Int
deriving DecidableEq, Repr

/-- Lookup in the `uniqueVertices` map, modelled as an association list. -/
def mapFind (v : Vertex) : List (Vertex × Nat) → Option Nat
  | [] => none
  | (k, i) :: rest => if v = k then some i else mapFind v rest

/-- State of the `loadModel` loop: the `uniqueVertices` map, the `vertices`
list and the `indices` list. -/
structure LoadState where
  uniqueVertices : List (Vertex × Nat)
  vertices : List Vertex
  indices : List Nat
deriving Repr

/-- One iteration of the `loadModel` loop on the source vertex `v`: if
`uniqueVertices.count(v) == 0`, insert `uniqueVertices[v] =
vertices.size()` and push `v` onto `vertices`; then push
`uniqueVertices[v]` onto `indices`. -/
def loadModelStep (st : LoadState) (v : Vertex) : LoadState :=
  match mapFind v st.uniqueVertices with
  | none =>
      { uniqueVertices := (v, st.vertices.length) :: st.uniqueVertices,
        vertices := st.vertices ++ [v],
        indices := st.indices ++ [st.vertices.length] }
  | some i =>
      { st with indices := st.indices ++ [i] }

/-- Embedding of `loadModel`: fold the loop over the stream of source
vertices (one per index of each shape, in order), starting from empty
`uniqueVertices`, `vertices` and `indices`. -/
def loadModel (input : List Vertex) : LoadState :=
  input.foldl loadModelStep ⟨[], [], []⟩

/-- The four corners of a 2-triangle quad (colour white, as `loadModel`
assigns), pairwise distinct. -/
def quadCorner0 : Vertex := ⟨(0, 0, 0), (1, 1, 1), (0, 0)⟩
/-- Second quad corner. -/
def quadCorner1 : Vertex := ⟨(1, 0, 0), (1, 1, 1), (1, 0)⟩
/-- Third quad corner. -/
def quadCorner2 : Vertex := ⟨(1, 1, 0), (1, 1, 1), (1, 1)⟩
/-- Fourth quad corner. -/
def quadCorner3 : Vertex := ⟨(0, 1, 0), (1, 1, 1), (0, 1)⟩

/-- The per-index vertex stream of a 2-triangle quad: six source indices,
with corners 0 and 2 duplicated between the triangles. -/
def quadInput : List Vertex :=
  [quadCorner0, quadCorner1, quadCorner2, quadCorner0, quadCorner2, quadCorner3]

/-- Invariant of the `loadModel` loop after consuming the source-vertex
stream `src`: the vertex list is duplicate-free, the map entries and the
vertex list mirror each other, one index was emitted per consumed source
vertex, and every emitted index points at a vertex equal to its source
vertex. -/
def LoadInv (src : List Vertex) (st : LoadState) : Prop :=
  st.vertices.Nodup ∧
  st.indices.length = src.length ∧
  (∀ v i, mapFind v st.uniqueVertices = some i → st.vertices.get? i = some v) ∧
  (∀ j v, st.vertices.get? j = some v → mapFind v st.uniqueVertices = some j) ∧
  (∀ k, k < src.length →
    ∃ j, st.indices.get? k = some j ∧ st.vertices.get? j = src.get? k)

/-! ## Staging-buffer upload (`createVertexBuffer` lines 973-995 and
`copyBuffer` lines 1139-1146 of src/main.cpp)

`createVertexBuffer` creates a staging buffer of exactly `bufferSize` bytes
with host-visible and host-coherent memory, maps it and `memcpy`s the host
data over its whole extent, creates the device-local destination buffer, and
calls `copyBuffer`, which records a single `vk::BufferCopy(0, 0, size)` into
a one-shot command buffer and submits it synchronously
(`endSingleTimeCommands` waits for the queue to idle).  Buffers are embedded
as lists of bytes plus their memory property flags; freshly created buffers
have indeterminate contents, taken as a parameter. -/

/-- Memory property flag bits, with the values of
`vk::MemoryPropertyFlagBits`. -/
def eDeviceLocal : Nat := 1
/-- Host-visible memory property bit. -/
def eHostVisible : Nat := 2
/-- Host-coherent memory property bit. -/
def eHostCoherent : Nat := 4

/-- A buffer with its backing memory: property flags and byte contents. -/
structure BufferRes where
  props : Nat
  bytes : List Nat
deriving DecidableEq, Repr

/-- Effect of `memcpy(data, src, n)` on a mapped buffer holding `dst`: the
first `n` bytes are replaced by the first `n` bytes of `src`. -/
def memcpyBytes (dst src : List Nat) (n : Nat) : List Nat :=
  src.take n ++ dst.drop n

/-- Effect of the `vk::BufferCopy(srcOff, dstOff, size)` region recorded by
`copyBuffer` on the destination contents `dst`. -/
def copyBufferBytes (src dst : List Nat) (srcOff dstOff size : Nat) :
    List Nat :=
  dst.take dstOff ++ (src.drop srcOff).take size ++ dst.drop (dstOff + size)

/-- Embedding of the upload protocol of `createVertexBuffer` (the identical
protocol serves index and texture-pixel uploads): given the host bytes and
the indeterminate initial contents of the two freshly allocated buffers,
returns the final staging buffer and the final device-local destination. -/
def createVertexBufferModel (hostData stagingInit destInit : List Nat) :
    BufferRes × BufferRes :=
  let bufferSize := hostData.length
  let staging : BufferRes :=
    { props := eHostVisible ||| eHostCoherent,
      bytes := memcpyBytes stagingInit hostData bufferSize }
  let dest : BufferRes :=
    { props := eDeviceLocal,
      bytes := copyBufferBytes staging.bytes destInit 0 0 bufferSize }
  (staging, dest)

/-! ## Swapchain creation and recreation (`createSwapchain` lines 398-432,
`recreateSwapchain` lines 1265-1285, and the three `chooseSwap*` helpers,
src/main.cpp)

`createSwapchain` queries the surface support (capabilities, formats, present
modes), picks the surface format, present mode and extent with the pure
helpers below, computes the image count as `minImageCount + 1` clamped to
`maxImageCount` when that is non-zero, and rebuilds the swapchain; it stores
the resulting format and extent.  `recreateSwapchain` waits for the device to
idle and re-runs the whole creation path; it reads nothing from the previous
swapchain state.  Formats, colour spaces and present modes are embedded as
their numeric enum codes. -/

/-- Code of `vk::Format::eB8G8R8A8Unorm`, the format preferred by
`chooseSwapSurfaceFormat`. -/
def eB8G8R8A8Unorm : Nat := 44
/-- Code of `vk::ColorSpaceKHR::eSrgbNonlinear`. -/
def eSrgbNonlinear : Nat := 0
/-- Code of `vk::PresentModeKHR::eMailbox`. -/
def eMailbox : Nat := 1
/-- Code of `vk::PresentModeKHR::eFifo`. -/
def eFifo : Nat := 2
/-- The `UINT32_MAX` sentinel used by `chooseSwapExtent`. -/
def UINT32_MAX : Nat := 2 ^ 32 - 1

/-- A surface format: format code and colour-space code. -/
structure SurfaceFormat where
  format : Nat
  colorSpace : Nat
deriving DecidableEq, Repr

/-- The surface capabilities fields read by `createSwapchain` and
`chooseSwapExtent`. -/
structure SurfaceCapabilities where
  minImageCount : Nat
  maxImageCount : Nat
  currentExtentW : Nat
  currentExtentH : Nat
  minImageExtentW : Nat
  minImageExtentH : Nat
  maxImageExtentW : Nat
  maxImageExtentH : Nat
deriving DecidableEq, Repr

/-- Result of `querySwapchainSupport`. -/
structure SwapchainSupportDetails where
  capabilities : SurfaceCapabilities
  formats : List SurfaceFormat
  presentModes : List Nat
deriving DecidableEq, Repr

/-- Embedding of `chooseSwapSurfaceFormat`: first available format equal to
(B8G8R8A8Unorm, SrgbNonlinear), else `availableFormats[0]`; `none` models the
out-of-bounds access on an empty list. -/
def chooseSwapSurfaceFormat (availableFormats : List SurfaceFormat) :
    Option SurfaceFormat :=
  match availableFormats.find? (fun f =>
      f.format = eB8G8R8A8Unorm ∧ f.colorSpace = eSrgbNonlinear) with
  | some f => some f
  | none => availableFormats.head?

/-- Embedding of `chooseSwapPresentMode`: mailbox if available, else FIFO. -/
def chooseSwapPresentMode (availablePresentModes : List Nat) : Nat :=
  match availablePresentModes.find? (fun m => m = eMailbox) with
  | some m => m
  | none => eFifo

/-- Embedding of `chooseSwapExtent`: the surface's `currentExtent` when its
width is not the `UINT32_MAX` sentinel, otherwise the window's pixel size
clamped into the surface's min/max extent. -/
def chooseSwapExtent (capabilities : SurfaceCapabilities)
    (windowW windowH : Nat) : Nat × Nat :=
  if capabilities.currentExtentW ≠ UINT32_MAX then
    (capabilities.currentExtentW, capabilities.currentExtentH)
  else
    (min (max windowW capabilities.minImageExtentW) capabilities.maxImageExtentW,
     min (max windowH capabilities.minImageExtentH) capabilities.maxImageExtentH)

/-- The swapchain state fields the recreate-idempotence property compares:
image count, image format, and extent. -/
structure SwapchainState where
  imageCount : Nat
  format : Nat
  extentW : Nat
  extentH : Nat
deriving DecidableEq, Repr

/-- Embedding of `createSwapchain`: choose format, present mode and extent
from the queried support and the window size, and compute the image count as
`minImageCount + 1`, clamped down to `maxImageCount` when `maxImageCount > 0`.
`none` models the failure on an empty format list. -/
def createSwapchainModel (support : SwapchainSupportDetails)
    (windowW windowH : Nat) : Option SwapchainState :=
  match chooseSwapSurfaceFormat support.formats with
  | none => none
  | some surfaceFormat =>
      let extent := chooseSwapExtent support.capabilities windowW windowH
      let imageCount0 := support.capabilities.minImageCount + 1
      let imageCount :=
        if support.capabilities.maxImageCount > 0 ∧
            imageCount0 > support.capabilities.maxImageCount then
          support.capabilities.maxImageCount
        else imageCount0
      some { imageCount := imageCount, format := surfaceFormat.format,
             extentW := extent.1, extentH := extent.2 }

/-- Embedding of `recreateSwapchain`: wait for the device to idle, then
rebuild everything by running the creation path again.  The previous
swapchain state is released and not consulted. -/
def recreateSwapchainModel (_previous : Option SwapchainState)
    (support : SwapchainSupportDetails) (windowW windowH : Nat) :
    Option SwapchainState :=
  createSwapchainModel support windowW windowH

/-! ## Validation-layer support check (`checkValidationLayerSupport`,
src/main.cpp lines 1403-1421)

For each requested layer name the source scans the available layers and sets
`layerFound = true` when `strcmp(layerName, layerProperties.layerName)` is
non-zero, i.e. when the two names DIFFER; it returns false as soon as one
requested layer ends the scan with `layerFound` still false.  `strcmp`
returning zero is modelled as string equality. -/

/-- The inner scan of `checkValidationLayerSupport` for one requested layer
name: true as soon as an available layer's name differs from it (the
source's `strcmp(...)` truthiness). -/
def layerFound (layerName : String) : List String → Bool
  | [] => false
  | props :: rest =>
      if layerName ≠ props then true else layerFound layerName rest

/-- Embedding of `checkValidationLayerSupport`: every requested layer must
end its scan with `layerFound` true. -/
def checkValidationLayerSupport (validationLayers availableLayers : List String) :
    Bool :=
  validationLayers.all (fun n => layerFound n availableLayers)

/-- The source's requested validation layers (src/main.cpp lines 35-37). -/
def srcValidationLayers : List String := ["VK_LAYER_KHRONOS_validation"]

/-! ## Frame synchronisation (`drawFrame` lines 1225-1263,
`recreateSwapchain` lines 1265-1285, `createSyncObjects` lines 1196-1207,
src/main.cpp)

`drawFrame` waits on the current slot's fence, acquires an image, and — when
the acquire result is `eErrorOutOfDateKHR` — calls `recreateSwapchain()` and
returns.  Otherwise it waits on the fence of the slot recorded in
`imagesInFlight` for the acquired index (when that entry is not `-1`),
records the current slot there, resets the current fence, submits the command
buffer (the fence is signalled by the GPU on completion), presents — the
present call's result is not inspected anywhere — and advances
`currentFrame` modulo `MAX_FRAMES_IN_FLIGHT`.

The embedding passes the acquire and present reports as oracle inputs
(modelled from the spec: the swapchain "reports" out-of-date / suboptimal /
success to the caller).  `waitForFences` blocks until the fence is signalled
and is modelled by its postcondition (the fence is signalled when it
returns).  Ghost fields record which image each slot's last submission
targets and count submissions, presents and swapchain recreations. -/

/-- The source's `MAX_FRAMES_IN_FLIGHT` constant (src/main.cpp line 33). -/
def MAX_FRAMES_IN_FLIGHT : Nat := 2

/-- Report of `acquireNextImageKHR`, as seen by `drawFrame`. -/
inductive AcquireResult where
  | success (idx : Nat)
  | suboptimal (idx : Nat)
  | outOfDate
deriving DecidableEq, Repr

/-- Report of `presentKHR`, as seen by `drawFrame`. -/
inductive PresentResult where
  | success
  | suboptimal
  | outOfDate
deriving DecidableEq, Repr

/-- State of the frame synchroniser.  `fences s = true` means slot `s`'s
fence is signalled; `imagesInFlight i = none` models the `-1` entry;
`submittedImage s` is the ghost record of which swapchain image slot `s`'s
most recent submission renders to; the three counters are ghost
instrumentation of queue submission, presentation and `recreateSwapchain`
calls. -/
structure EngineState where
  currentFrame : Nat
  fences : Nat → Bool
  imagesInFlight : Nat → Option Nat
  submittedImage : Nat → Option Nat
  submitCount : Nat
  presentCount : Nat
  recreateCount : Nat

/-- Effect of a completed `waitForFences` on slot `s`: when the call
returns, the fence of `s` is signalled. -/
def waitForFences (st : EngineState) (s : Nat) : EngineState :=
  { st with fences := fun j => if j = s then true else st.fences j }

/-- Effect of `resetFences` on slot `s`: the fence becomes unsignalled. -/
def resetFences (st : EngineState) (s : Nat) : EngineState :=
  { st with fences := fun j => if j = s then false else st.fences j }

/-- Effect of `recreateSwapchain()` on the synchroniser state: the swapchain
resources are rebuilt (counted by the ghost counter); fences, semaphores,
`imagesInFlight` and `currentFrame` are not touched (`createSyncObjects` is
not re-run). -/
def recreateSwapchainSync (st : EngineState) : EngineState :=
  { st with recreateCount := st.recreateCount + 1 }

/-- Effect of `graphicsQueue.submit(..., inFlightFences[currentFrame])` for a
frame rendering to swapchain image `idx`: the slot's in-flight work now
targets `idx` (its fence will be signalled by the GPU later, via
`gpuComplete`). -/
def submitFrame (st : EngineState) (idx : Nat) : EngineState :=
  { st with
      submittedImage := fun j =>
        if j = st.currentFrame then some idx else st.submittedImage j,
      submitCount := st.submitCount + 1 }

/-- The GPU finishing the work of slot `s`: its fence becomes signalled. -/
def gpuComplete (st : EngineState) (s : Nat) : EngineState :=
  { st with fences := fun j => if j = s then true else st.fences j }

/-- One outcome of a `drawFrame` call. -/
inductive FrameOutcome where
  | completed
  | abortedForRecreate
deriving DecidableEq, Repr

/-- Embedding of `drawFrame` (src/main.cpp lines 1225-1263), with the
acquire and present reports as oracle inputs:
wait on the current fence; on acquire out-of-date, recreate the swapchain and
return; otherwise wait on the fence of the slot that `imagesInFlight` records
for the acquired index (if any), record the current slot there, reset the
current fence, submit, present (the present report `pres` is never
inspected), and advance `currentFrame` modulo `MAX_FRAMES_IN_FLIGHT`. -/
def drawFrame (st : EngineState) (acq : AcquireResult) (pres : PresentResult) :
    EngineState × FrameOutcome :=
  let st := waitForFences st st.currentFrame
  match acq with
  | .outOfDate => (recreateSwapchainSync st, .abortedForRecreate)
  | .success idx | .suboptimal idx =>
      let st := match st.imagesInFlight idx with
        | some prev => waitForFences st prev
        | none => st
      let st := { st with imagesInFlight := fun j =>
        if j = idx then some st.currentFrame else st.imagesInFlight j }
      let st := resetFences st st.currentFrame
      let st := submitFrame st idx
      let st := { st with presentCount := st.presentCount + 1 }
      let st := { st with
        currentFrame := (st.currentFrame + 1) % MAX_FRAMES_IN_FLIGHT }
      (st, .completed)

/-- The state after `createSyncObjects` (src/main.cpp lines 1196-1207): all
fences created signalled, every `imagesInFlight` entry `-1`, no work
submitted yet. -/
def initState : EngineState :=
  { currentFrame := 0,
    fences := fun _ => true,
    imagesInFlight := fun _ => none,
    submittedImage := fun _ => none,
    submitCount := 0,
    presentCount := 0,
    recreateCount := 0 }

/-- Steady-state reachability: the states the frame loop can be in, starting
from `createSyncObjects` and interleaving `drawFrame` iterations (under any
acquire/present reports) with GPU completions. -/
inductive Reachable : EngineState → Prop where
  | init : Reachable initState
  | draw (st : EngineState) (acq : AcquireResult) (pres : PresentResult) :
      Reachable st → Reachable (drawFrame st acq pres).1
  | gpu (st : EngineState) (s : Nat) :
      Reachable st → Reachable (gpuComplete st s)

/-- The inductive strengthening of the ImageInFlight invariant: every slot
whose fence is unsignalled and whose in-flight submission targets image
`img` is precisely the slot the `imagesInFlight` mapping records for
`img`. -/
def EngineInv (st : EngineState) : Prop :=
  ∀ s img, st.fences s = false → st.submittedImage s = some img →
    st.imagesInFlight img = some s

end VulkanEngine

namespace VulkanEngine

/-! ## Helper lemmas -/

lemma findMemoryTypeAux_some (typeFilter properties : Nat) :
    ∀ (l : List Nat) (i j : Nat),
      findMemoryTypeAux typeFilter properties i l = some j →
      i ≤ j ∧ j - i < l.length ∧
        (∃ h : j - i < l.length,
          memTypeSuitable typeFilter properties j (l.get ⟨j - i, h⟩)) ∧
        ∀ k (h : k < l.length), i + k < j →
          ¬ memTypeSuitable typeFilter properties (i + k) (l.get ⟨k, h⟩) := by
  intro l
  induction l with
  | nil => intro i j h; simp [findMemoryTypeAux] at h
  | cons flags rest ih =>
      intro i j h
      by_cases hs : memTypeSuitable typeFilter properties i flags
      · simp [findMemoryTypeAux, hs] at h
        subst h
        refine ⟨le_rfl, by simp, ⟨by simp, by simpa using hs⟩, ?_⟩
        intro k hk hlt
        omega
      · simp [findMemoryTypeAux, hs] at h
        obtain ⟨hle, hlen, ⟨hlt, hsui⟩, hmin⟩ := ih (i + 1) j h
        refine ⟨by omega, by simp; omega, ?_, ?_⟩
        · have hlt' : j - i < (flags :: rest).length := by simp; omega
          refine ⟨hlt', ?_⟩
          have : j - i = (j - (i + 1)) + 1 := by omega
          simpa [this] using hsui
        · intro k hk hklt
          match k with
          | 0 => simpa using hs
          | k + 1 =>
              have hk' : k < rest.length := by simpa using hk
              have := hmin k hk' (by omega)
              simpa [Nat.add_assoc, Nat.add_comm 1 k, Nat.add_left_comm] using this

lemma findMemoryTypeAux_none (typeFilter properties : Nat) :
    ∀ (l : List Nat) (i : Nat),
      findMemoryTypeAux typeFilter properties i l = none →
      ∀ k (h : k < l.length),
        ¬ memTypeSuitable typeFilter properties (i + k) (l.get ⟨k, h⟩) := by
  intro l
  induction l with
  | nil => intro i _ k hk; simp at hk
  | cons flags rest ih =>
      intro i h k hk
      by_cases hs : memTypeSuitable typeFilter properties i flags
      · simp [findMemoryTypeAux, hs] at h
      · simp [findMemoryTypeAux, hs] at h
        match k with
        | 0 => simpa using hs
        | k + 1 =>
            have hk' : k < rest.length := by simpa using hk
            have := ih (i + 1) h k hk'
            simpa [Nat.add_assoc, Nat.add_comm 1 k, Nat.add_left_comm] using this

lemma genMipBlitsAux_length (fuel : Nat) :
    ∀ i w h, (genMipBlitsAux fuel i w h).length = fuel := by
  induction fuel with
  | zero => intro i w h; rfl
  | succ fuel ih => intro i w h; simp [genMipBlitsAux, ih]

lemma mip_half_dst (W j : Nat) :
    (if 1 < max 1 (W >>> j) then max 1 (W >>> j) / 2 else 1) =
      max 1 (W >>> (j + 1)) := by
  rw [Nat.shiftRight_succ]
  generalize W >>> j = a
  by_cases h : 1 < max 1 a
  · rw [if_pos h]; omega
  · rw [if_neg h]; omega

lemma mip_half_next (W j : Nat) :
    (if 1 < max 1 (W >>> j) then max 1 (W >>> j) / 2 else max 1 (W >>> j)) =
      max 1 (W >>> (j + 1)) := by
  rw [Nat.shiftRight_succ]
  generalize W >>> j = a
  by_cases h : 1 < max 1 a
  · rw [if_pos h]; omega
  · rw [if_neg h]; omega

lemma genMipBlitsAux_get (W H : Nat) :
    ∀ (fuel j k : Nat), k < fuel →
      (genMipBlitsAux fuel (j + 1) (max 1 (W >>> j)) (max 1 (H >>> j))).get? k =
        some { level := j + 1 + k,
               srcW := max 1 (W >>> (j + k)), srcH := max 1 (H >>> (j + k)),
               dstW := max 1 (W >>> (j + k + 1)),
               dstH := max 1 (H >>> (j + k + 1)) } := by
  intro fuel
  induction fuel with
  | zero => intro j k hk; omega
  | succ fuel ih =>
      intro j k hk
      match k with
      | 0 =>
          simp only [genMipBlitsAux, List.get?_cons_zero, Nat.add_zero]
          rw [mip_half_dst W j, mip_half_dst H j]
      | k + 1 =>
          simp only [genMipBlitsAux, List.get?_cons_succ]
          rw [mip_half_next W j, mip_half_next H j]
          have := ih (j + 1) k (by omega)
          have harith1 : j + 1 + 1 + k = j + 1 + (k + 1) := by omega
          have harith2 : j + 1 + k = j + (k + 1) := by omega
          rw [harith1, harith2] at this
          exact this

lemma loadModelStep_inv (src : List Vertex) (st : LoadState) (v : Vertex)
    (h : LoadInv src st) : LoadInv (src ++ [v]) (loadModelStep st v) := by
  obtain ⟨hnd, hlen, hmapA, hmapB, hidx⟩ := h
  cases hfind : mapFind v st.uniqueVertices with
  | none =>
      have hvnot : v ∉ st.vertices := by
        intro hv
        obtain ⟨j, hj⟩ := List.get?_of_mem hv
        have := hmapB j v hj
        rw [hfind] at this
        exact Option.noConfusion this
      have hstep : loadModelStep st v =
          { uniqueVertices := (v, st.vertices.length) :: st.uniqueVertices,
            vertices := st.vertices ++ [v],
            indices := st.indices ++ [st.vertices.length] } := by
        simp [loadModelStep, hfind]
      rw [hstep]
      refine ⟨?_, ?_, ?_, ?_, ?_⟩
      · show (st.vertices ++ [v]).Nodup
        rw [List.nodup_append]
        refine ⟨hnd, List.nodup_singleton v, ?_⟩
        intro a ha hb
        rw [List.mem_singleton] at hb
        subst hb
        exact hvnot ha
      · show (st.indices ++ [st.vertices.length]).length = (src ++ [v]).length
        simp [hlen]
      · intro w i hw
        simp only [mapFind] at hw
        by_cases hwv : w = v
        · rw [if_pos hwv] at hw
          injection hw with hw
          subst hw
          rw [hwv]
          exact List.get?_concat_length _ _
        · rw [if_neg hwv] at hw
          have hold := hmapA w i hw
          obtain ⟨hilt, -⟩ := List.get?_eq_some.mp hold
          show (st.vertices ++ [v]).get? i = some w
          rw [List.get?_append hilt]
          exact hold
      · intro j w hw
        show mapFind w ((v, st.vertices.length) :: st.uniqueVertices) = some j
        simp only [mapFind]
        rcases Nat.lt_trichotomy j st.vertices.length with hj | hj | hj
        · rw [List.get?_append hj] at hw
          have hwmem : w ∈ st.vertices := List.get?_mem hw
          have hwv : w ≠ v := fun he => hvnot (he ▸ hwmem)
          rw [if_neg hwv]
          exact hmapB j w hw
        · rw [hj, List.get?_concat_length] at hw
          injection hw with hw
          rw [if_pos hw.symm, hj]
        · exfalso
          have : (st.vertices ++ [v]).length ≤ j := by simp; omega
          rw [List.get?_eq_none.mpr this] at hw
          exact Option.noConfusion hw
      · intro k hk
        rw [List.length_append, List.length_singleton] at hk
        by_cases hks : k < src.length
        · obtain ⟨j, hj1, hj2⟩ := hidx k hks
          have hsk : src.get? k = some (src.get ⟨k, hks⟩) := List.get?_eq_get hks
          have hjlt : j < st.vertices.length := by
            rw [hsk] at hj2
            obtain ⟨h, -⟩ := List.get?_eq_some.mp hj2
            exact h
          refine ⟨j, ?_, ?_⟩
          · show (st.indices ++ [st.vertices.length]).get? k = some j
            rw [List.get?_append (hlen ▸ hks)]
            exact hj1
          · show (st.vertices ++ [v]).get? j = (src ++ [v]).get? k
            rw [List.get?_append hjlt, List.get?_append hks]
            exact hj2
        · have hkeq : k = src.length := by omega
          subst hkeq
          refine ⟨st.vertices.length, ?_, ?_⟩
          · show (st.indices ++ [st.vertices.length]).get? src.length = _
            rw [← hlen, List.get?_concat_length]
          · show (st.vertices ++ [v]).get? st.vertices.length = (src ++ [v]).get? src.length
            rw [List.get?_concat_length, List.get?_concat_length]
  | some i =>
      have hstep : loadModelStep st v = { st with indices := st.indices ++ [i] } := by
        simp [loadModelStep, hfind]
      rw [hstep]
      refine ⟨hnd, ?_, hmapA, hmapB, ?_⟩
      · show (st.indices ++ [i]).length = (src ++ [v]).length
        simp [hlen]
      · intro k hk
        rw [List.length_append, List.length_singleton] at hk
        by_cases hks : k < src.length
        · obtain ⟨j, hj1, hj2⟩ := hidx k hks
          refine ⟨j, ?_, ?_⟩
          · show (st.indices ++ [i]).get? k = some j
            rw [List.get?_append (hlen ▸ hks)]
            exact hj1
          · show st.vertices.get? j = (src ++ [v]).get? k
            rw [List.get?_append hks]
            exact hj2
        · have hkeq : k = src.length := by omega
          subst hkeq
          refine ⟨i, ?_, ?_⟩
          · show (st.indices ++ [i]).get? src.length = some i
            rw [← hlen, List.get?_concat_length]
          · show st.vertices.get? i = (src ++ [v]).get? src.length
            rw [List.get?_concat_length]
            exact hmapA v i hfind

lemma loadModel_fold_inv :
    ∀ (rest src : List Vertex) (st : LoadState),
      LoadInv src st → LoadInv (src ++ rest) (rest.foldl loadModelStep st) := by
  intro rest
  induction rest with
  | nil => intro src st h; simpa using h
  | cons v rest ih =>
      intro src st h
      have := ih (src ++ [v]) (loadModelStep st v) (loadModelStep_inv src st v h)
      simpa [List.append_assoc] using this

lemma loadModel_inv (input : List Vertex) : LoadInv input (loadModel input) := by
  have hinit : LoadInv [] ⟨[], [], []⟩ := by
    refine ⟨List.nodup_nil, rfl, ?_, ?_, ?_⟩
    · intro v i h; simp [mapFind] at h
    · intro j v h; simp at h
    · intro k hk; simp at hk
  have := loadModel_fold_inv input [] ⟨[], [], []⟩ hinit
  simpa [loadModel] using this

lemma gpuComplete_preserves_inv (st : EngineState) (s : Nat)
    (h : EngineInv st) : EngineInv (gpuComplete st s) := by
  intro s0 img hf hsub
  simp only [gpuComplete] at hf hsub ⊢
  by_cases hs0 : s0 = s
  · rw [if_pos hs0] at hf
    exact absurd hf (by simp)
  · rw [if_neg hs0] at hf
    exact h s0 img hf hsub

lemma drawFrame_success_preserves_inv (st : EngineState) (idx : Nat)
    (p : PresentResult) (h : EngineInv st) :
    EngineInv (drawFrame st (.success idx) p).1 := by
  intro s0 img hf hsub
  simp only [drawFrame, waitForFences, resetFences, submitFrame] at hf hsub ⊢
  cases hprev : st.imagesInFlight idx with
  | none =>
      rw [hprev] at hf hsub
      dsimp only at hf hsub ⊢
      by_cases hs0 : s0 = st.currentFrame
      · rw [if_pos hs0] at hsub
        injection hsub with hsub
        subst hsub
        rw [if_pos rfl, hs0]
      · rw [if_neg hs0, if_neg hs0] at hf
        rw [if_neg hs0] at hsub
        have hmap := h s0 img hf hsub
        by_cases himg : img = idx
        · subst himg
          rw [hmap] at hprev
          exact Option.noConfusion hprev
        · rw [if_neg himg]
          exact hmap
  | some prev =>
      rw [hprev] at hf hsub
      dsimp only at hf hsub ⊢
      by_cases hs0 : s0 = st.currentFrame
      · rw [if_pos hs0] at hsub
        injection hsub with hsub
        subst hsub
        rw [if_pos rfl, hs0]
      · rw [if_neg hs0] at hf hsub
        by_cases hsp : s0 = prev
        · rw [if_pos hsp] at hf
          exact absurd hf (by simp)
        · rw [if_neg hsp, if_neg hs0] at hf
          have hmap := h s0 img hf hsub
          by_cases himg : img = idx
          · subst himg
            rw [hmap] at hprev
            injection hprev with hprev
            exact absurd hprev hsp
          · rw [if_neg himg]
            exact hmap

lemma drawFrame_preserves_inv (st : EngineState) (acq : AcquireResult)
    (p : PresentResult) (h : EngineInv st) :
    EngineInv (drawFrame st acq p).1 := by
  cases acq with
  | success idx => exact drawFrame_success_preserves_inv st idx p h
  | suboptimal idx => exact drawFrame_success_preserves_inv st idx p h
  | outOfDate =>
      intro s0 img hf hsub
      simp only [drawFrame, recreateSwapchainSync, waitForFences] at hf hsub ⊢
      by_cases hs0 : s0 = st.currentFrame
      · rw [if_pos hs0] at hf
        exact absurd hf (by simp)
      · rw [if_neg hs0] at hf
        exact h s0 img hf hsub

lemma reachable_engineInv (st : EngineState) (h : Reachable st) :
    EngineInv st := by
  induction h with
  | init =>
      intro s img hf _
      simp [initState] at hf
  | draw st acq pres _ ih => exact drawFrame_preserves_inv st acq pres ih
  | gpu st s _ ih => exact gpuComplete_preserves_inv st s ih

/-! ## Claim theorems -/

/-- C4: for every memory-type list, bitmask and property-flag set,
`findMemoryType` returns the lowest index `i` whose type bit is set in the
bitmask and whose property flags are a superset of the requested flags, and
fails with the no-suitable-memory-type error (`none`) exactly when no index
qualifies. -/
theorem findMemoryType_lowest_superset (memoryTypes : List Nat)
    (typeFilter properties : Nat) :
    (∀ i, findMemoryType memoryTypes typeFilter properties = some i →
      ∃ h : i < memoryTypes.length,
        memTypeSuitable typeFilter properties i (memoryTypes.get ⟨i, h⟩) ∧
        ∀ j (hj : j < memoryTypes.length), j < i →
          ¬ memTypeSuitable typeFilter properties j (memoryTypes.get ⟨j, hj⟩)) ∧
    (findMemoryType memoryTypes typeFilter properties = none →
      ∀ j (hj : j < memoryTypes.length),
        ¬ memTypeSuitable typeFilter properties j (memoryTypes.get ⟨j, hj⟩)) := by
  constructor
  · intro i h
    obtain ⟨-, hlen, ⟨hlt, hsui⟩, hmin⟩ :=
      findMemoryTypeAux_some typeFilter properties memoryTypes 0 i h
    simp only [Nat.sub_zero] at hlen hlt hsui
    refine ⟨hlen, hsui, ?_⟩
    intro j hj hji
    have := hmin j hj (by omega)
    simpa using this
  · intro h j hj
    have := findMemoryTypeAux_none typeFilter properties memoryTypes 0 h j hj
    simpa using this

/-- Witness for C4 at a concrete device: memory types with property flags
`[1, 2, 6]`, type bitmask `6`, requested flags `6`: index 2 is returned and
is the lowest suitable index. -/
theorem findMemoryType_lowest_superset_witness :
    ∃ h : 2 < ([1, 2, 6] : List Nat).length,
      memTypeSuitable 6 6 2 (([1, 2, 6] : List Nat).get ⟨2, h⟩) ∧
      ∀ j (hj : j < ([1, 2, 6] : List Nat).length), j < 2 →
        ¬ memTypeSuitable 6 6 j (([1, 2, 6] : List Nat).get ⟨j, hj⟩) :=
  (findMemoryType_lowest_superset [1, 2, 6] 6 6).1 2 (by decide)

/-- C5: for a base image of size `(W, H)` with `W, H ≥ 1` and `L` mip levels,
`generateMipmaps` records exactly `L - 1` blits, level by level, and the blit
producing level `i` (for `1 ≤ i < L`) has destination extent
`(max 1 (W >>> i), max 1 (H >>> i))` — half the previous level's extent
(itself `(max 1 (W >>> (i-1)), max 1 (H >>> (i-1)))`), floored at 1. -/
theorem generateMipmaps_blit_extents (W H L i : Nat)
    (hW : 1 ≤ W) (hH : 1 ≤ H) (hi : 1 ≤ i) (hiL : i < L) :
    (generateMipmapsBlits W H L).length = L - 1 ∧
    (generateMipmapsBlits W H L).get? (i - 1) =
      some { level := i,
             srcW := max 1 (W >>> (i - 1)), srcH := max 1 (H >>> (i - 1)),
             dstW := max 1 (W >>> i), dstH := max 1 (H >>> i) } := by
  refine ⟨genMipBlitsAux_length _ _ _ _, ?_⟩
  have hWmax : max 1 (W >>> 0) = W := by
    rw [Nat.shiftRight_zero]; exact max_eq_right hW
  have hHmax : max 1 (H >>> 0) = H := by
    rw [Nat.shiftRight_zero]; exact max_eq_right hH
  have := genMipBlitsAux_get W H (L - 1) 0 (i - 1) (by omega)
  rw [hWmax, hHmax] at this
  have h1 : 0 + 1 + (i - 1) = i := by omega
  have h2 : 0 + (i - 1) = i - 1 := by omega
  rw [h1, h2] at this
  have h3 : i - 1 + 1 = i := by omega
  rw [h3] at this
  exact this

/-- Witness for C5 at a concrete 4×4 base image with 3 levels: the blit
producing level 2 has destination extent 1×1. -/
theorem generateMipmaps_blit_extents_witness :
    (generateMipmapsBlits 4 4 3).length = 3 - 1 ∧
    (generateMipmapsBlits 4 4 3).get? (2 - 1) =
      some { level := 2,
             srcW := max 1 (4 >>> (2 - 1)), srcH := max 1 (4 >>> (2 - 1)),
             dstW := max 1 (4 >>> 2), dstH := max 1 (4 >>> 2) } :=
  generateMipmaps_blit_extents 4 4 3 2 (by decide) (by decide) (by decide)
    (by decide)

/-- C6: for a loaded texture of width `W` and height `H` (both at least 1),
the computed mip level count is `floor(log2(max(W, H))) + 1` — pinned down by
`2 ^ (mipLevels - 1) ≤ max W H < 2 ^ mipLevels` — and a 256×256 texture
yields 9 mip levels. -/
theorem mipLevels_floor_log2 :
    (∀ W H : Nat, 1 ≤ W → 1 ≤ H →
      2 ^ (mipLevelsOf W H - 1) ≤ max W H ∧ max W H < 2 ^ mipLevelsOf W H) ∧
    mipLevelsOf 256 256 = 9 := by
  constructor
  · intro W H hW hH
    have hne : max W H ≠ 0 := by omega
    constructor
    · simpa [mipLevelsOf] using (Nat.le_log2 hne).mp le_rfl
    · simpa [mipLevelsOf] using (Nat.log2_lt hne).mp (Nat.lt_succ_self _)
  · have h8 : 8 ≤ Nat.log2 256 := (Nat.le_log2 (by decide)).mpr (by decide)
    have h9 : Nat.log2 256 < 9 := (Nat.log2_lt (by decide)).mpr (by decide)
    simp only [mipLevelsOf, Nat.max_self]
    omega

/-- Witness for C6 at the 256×256 texture of the end-to-end scenario. -/
theorem mipLevels_floor_log2_witness :
    2 ^ (mipLevelsOf 256 256 - 1) ≤ max 256 256 ∧
      max 256 256 < 2 ^ mipLevelsOf 256 256 :=
  mipLevels_floor_log2.1 256 256 (by decide) (by decide)

/-- C10: `checkValidationLayerSupport` treats a non-zero `strcmp` (the two
names differ) as the layer having been found: it reports success exactly when
for every requested layer some available layer's name DIFFERS from it — and
in particular it reports the source's requested layer as missing when the
available list contains exactly that layer, and as present when the available
list contains only an unrelated name. -/
theorem checkValidationLayerSupport_inverted :
    (∀ validationLayers availableLayers : List String,
      checkValidationLayerSupport validationLayers availableLayers = true ↔
        ∀ name ∈ validationLayers, ∃ l ∈ availableLayers, l ≠ name) ∧
    checkValidationLayerSupport srcValidationLayers
      ["VK_LAYER_KHRONOS_validation"] = false ∧
    checkValidationLayerSupport srcValidationLayers ["VK_LAYER_other"] = true := by
  refine ⟨?_, by decide, by decide⟩
  intro validationLayers availableLayers
  have hone : ∀ (name : String) (l : List String),
      layerFound name l = true ↔ ∃ x ∈ l, x ≠ name := by
    intro name l
    induction l with
    | nil => simp [layerFound]
    | cons p rest ih =>
        by_cases hp : name = p
        · subst hp
          simp [layerFound, ih]
        · constructor
          · intro _
            exact ⟨p, List.mem_cons_self p rest, fun hc => hp hc.symm⟩
          · intro _
            simp [layerFound, hp]
  simp only [checkValidationLayerSupport, List.all_eq_true]
  constructor
  · intro h name hmem
    exact (hone name availableLayers).mp (h name hmem)
  · intro h name hmem
    exact (hone name availableLayers).mpr (h name hmem)

/-- Witness for C10: with only the unrelated layer "VK_LAYER_other"
available, the check reports the requested KHRONOS validation layer as
supported. -/
theorem checkValidationLayerSupport_inverted_witness :
    checkValidationLayerSupport srcValidationLayers ["VK_LAYER_other"] = true :=
  (checkValidationLayerSupport_inverted.1 srcValidationLayers
      ["VK_LAYER_other"]).mpr (by decide)

/-- C7: for every host byte buffer, the staging-buffer upload protocol of
`createVertexBuffer`/`copyBuffer` — a staging buffer of exactly the host
size in host-visible, host-coherent memory, `memcpy` of the host data into
it, then a synchronous whole-buffer copy into the device-local destination —
leaves the destination holding a byte-exact copy of the host data,
whatever the indeterminate initial contents of the two allocations were. -/
theorem upload_roundtrip (hostData stagingInit destInit : List Nat)
    (hs : stagingInit.length = hostData.length)
    (hd : destInit.length = hostData.length) :
    (createVertexBufferModel hostData stagingInit destInit).2.bytes = hostData ∧
    (createVertexBufferModel hostData stagingInit destInit).2.props =
      eDeviceLocal ∧
    (createVertexBufferModel hostData stagingInit destInit).1.props =
      (eHostVisible ||| eHostCoherent) := by
  refine ⟨?_, rfl, rfl⟩
  show copyBufferBytes (memcpyBytes stagingInit hostData hostData.length)
      destInit 0 0 hostData.length = hostData
  have hstag : memcpyBytes stagingInit hostData hostData.length = hostData := by
    unfold memcpyBytes
    rw [List.take_length, ← hs, List.drop_length, List.append_nil]
  rw [hstag]
  unfold copyBufferBytes
  simp only [List.take_zero, List.drop_zero, List.nil_append, Nat.zero_add]
  rw [List.take_length, ← hd, List.drop_length, List.append_nil]

/-- Witness for C7 at a concrete 3-byte host buffer. -/
theorem upload_roundtrip_witness :
    (createVertexBufferModel [10, 20, 30] [0, 0, 0] [7, 7, 7]).2.bytes =
      [10, 20, 30] ∧
    (createVertexBufferModel [10, 20, 30] [0, 0, 0] [7, 7, 7]).2.props =
      eDeviceLocal ∧
    (createVertexBufferModel [10, 20, 30] [0, 0, 0] [7, 7, 7]).1.props =
      (eHostVisible ||| eHostCoherent) :=
  upload_roundtrip [10, 20, 30] [0, 0, 0] [7, 7, 7] (by decide) (by decide)

/-- C8: with the surface's reported capabilities, formats and present modes
unchanged and no intervening resize (same window size), two successive
`recreateSwapchain` calls produce the same swapchain state — in particular
equal extent, image format and image count.  `recreateSwapchain` rebuilds
purely from the queried support and window size and reads nothing from the
previous swapchain. -/
theorem recreateSwapchain_idempotent (previous : Option SwapchainState)
    (support : SwapchainSupportDetails) (windowW windowH : Nat) :
    recreateSwapchainModel
        (recreateSwapchainModel previous support windowW windowH)
        support windowW windowH =
      recreateSwapchainModel previous support windowW windowH := rfl

/-- C9: after `loadModel`, the vertex list is duplicate-free under exact
field equality, one index is emitted per source index, every index is a
valid position in the vertex list, and the vertex it references equals the
source vertex it replaced; the 2-triangle quad with duplicated corners
yields exactly 4 vertices and the index list `[0, 1, 2, 0, 2, 3]`. -/
theorem loadModel_dedup (input : List Vertex) :
    (loadModel input).vertices.Nodup ∧
    (loadModel input).indices.length = input.length ∧
    (∀ k, k < input.length →
      ∃ j, (loadModel input).indices.get? k = some j ∧
        j < (loadModel input).vertices.length ∧
        (loadModel input).vertices.get? j = input.get? k) ∧
    (loadModel quadInput).vertices =
      [quadCorner0, quadCorner1, quadCorner2, quadCorner3] ∧
    (loadModel quadInput).indices = [0, 1, 2, 0, 2, 3] := by
  obtain ⟨h1, h2, -, -, h5⟩ := loadModel_inv input
  refine ⟨h1, h2, ?_, by decide, by decide⟩
  intro k hk
  obtain ⟨j, hj1, hj2⟩ := h5 k hk
  refine ⟨j, hj1, ?_, hj2⟩
  have hsk : input.get? k = some (input.get ⟨k, hk⟩) := List.get?_eq_get hk
  rw [hsk] at hj2
  obtain ⟨hjlt, -⟩ := List.get?_eq_some.mp hj2
  exact hjlt

/-- Witness for C9 at the quad input, position 3 (the repeated first
corner): its emitted index points back at the deduplicated vertex. -/
theorem loadModel_dedup_witness :
    ∃ j, (loadModel quadInput).indices.get? 3 = some j ∧
      j < (loadModel quadInput).vertices.length ∧
      (loadModel quadInput).vertices.get? j = quadInput.get? 3 :=
  (loadModel_dedup quadInput).2.2.1 3 (by decide)

/-- Counterexample to C1: at the initial state, after a successful acquire
of image 0, a present reporting the swapchain out-of-date does NOT trigger
`recreateSwapchain` — the recreate counter stays 0, the frame completes, and
the resulting engine state is identical to the one a successful present
produces, so no record exists that could defer a recreation to a later
opportunity. -/
theorem drawFrame_present_outOfDate_ignored_cex :
    (drawFrame initState (.success 0) .outOfDate).1.recreateCount = 0 ∧
    (drawFrame initState (.success 0) .outOfDate).2 = .completed ∧
    (drawFrame initState (.success 0) .outOfDate).1 =
      (drawFrame initState (.success 0) .success).1 :=
  ⟨rfl, rfl, rfl⟩

/-- C1 amended: `drawFrame` never inspects the present report — its result
is entirely independent of it — so a present-reported out-of-date or
suboptimal swapchain never triggers `recreateSwapchain`, immediately or
deferred; within `drawFrame`, `recreateSwapchain` runs exactly when the
ACQUIRE reports out-of-date.  (Presentation staleness also does not
propagate out of the frame loop in this embedding, because its report is
discarded entirely.) -/
theorem drawFrame_present_report_unused (st : EngineState)
    (acq : AcquireResult) (p1 p2 : PresentResult) :
    drawFrame st acq p1 = drawFrame st acq p2 ∧
    ((drawFrame st acq p1).1.recreateCount ≠ st.recreateCount ↔
      acq = .outOfDate) := by
  refine ⟨rfl, ?_⟩
  cases acq with
  | outOfDate =>
      show st.recreateCount + 1 ≠ st.recreateCount ↔ _
      simp
  | success idx =>
      constructor
      · intro hne
        exfalso
        apply hne
        show (drawFrame st (.success idx) p1).1.recreateCount = st.recreateCount
        simp only [drawFrame, waitForFences, resetFences, submitFrame]
        cases st.imagesInFlight idx <;> rfl
      · intro hco
        exact absurd hco (by simp)
  | suboptimal idx =>
      constructor
      · intro hne
        exfalso
        apply hne
        show (drawFrame st (.suboptimal idx) p1).1.recreateCount = st.recreateCount
        simp only [drawFrame, waitForFences, resetFences, submitFrame]
        cases st.imagesInFlight idx <;> rfl
      · intro hco
        exact absurd hco (by simp)

/-- Witness for the amended C1 at the initial state: present out-of-date
and present success give the same result, and the recreate counter is
untouched because the acquire succeeded. -/
theorem drawFrame_present_report_unused_witness :
    drawFrame initState (.success 0) .outOfDate =
      drawFrame initState (.success 0) .success ∧
    ((drawFrame initState (.success 0) .outOfDate).1.recreateCount ≠
        initState.recreateCount ↔
      (AcquireResult.success 0) = .outOfDate) :=
  drawFrame_present_report_unused initState (.success 0) .outOfDate .success

/-- C2: when acquisition reports the swapchain out-of-date, `drawFrame`
aborts the frame: `recreateSwapchain` runs once and nothing else happens —
no queue submission, no present, no claim recorded in `imagesInFlight`, no
in-flight target recorded, the current slot does not advance, and the
current fence is not reset (it is still signalled after the wait; every
other fence is untouched). -/
theorem drawFrame_acquire_outOfDate_aborts (st : EngineState)
    (pres : PresentResult) :
    (drawFrame st .outOfDate pres).2 = .abortedForRecreate ∧
    (drawFrame st .outOfDate pres).1.recreateCount = st.recreateCount + 1 ∧
    (drawFrame st .outOfDate pres).1.submitCount = st.submitCount ∧
    (drawFrame st .outOfDate pres).1.presentCount = st.presentCount ∧
    (drawFrame st .outOfDate pres).1.imagesInFlight = st.imagesInFlight ∧
    (drawFrame st .outOfDate pres).1.submittedImage = st.submittedImage ∧
    (drawFrame st .outOfDate pres).1.currentFrame = st.currentFrame ∧
    (drawFrame st .outOfDate pres).1.fences st.currentFrame = true ∧
    (∀ s, s ≠ st.currentFrame →
      (drawFrame st .outOfDate pres).1.fences s = st.fences s) := by
  refine ⟨rfl, rfl, rfl, rfl, rfl, rfl, rfl, ?_, ?_⟩
  · show (if st.currentFrame = st.currentFrame then true
        else st.fences st.currentFrame) = true
    rw [if_pos rfl]
  · intro s hs
    show (if s = st.currentFrame then true else st.fences s) = st.fences s
    rw [if_neg hs]

/-- Witness for C2 at the initial state: slot 1's fence is untouched by the
aborted iteration. -/
theorem drawFrame_acquire_outOfDate_aborts_witness :
    (drawFrame initState .outOfDate .success).1.fences 1 =
      initState.fences 1 :=
  (drawFrame_acquire_outOfDate_aborts initState
      .success).2.2.2.2.2.2.2.2 1 (by decide)

/-- C3: in every reachable state of the steady-state frame loop, no two
frame slots simultaneously hold unsignalled fences while their in-flight
submissions target the same swapchain image — the mutual exclusion that
`drawFrame` preserves by waiting on the fence of whichever slot
`imagesInFlight` records for the acquired image before recording the new
claim and submitting. -/
theorem imagesInFlight_mutual_exclusion (st : EngineState)
    (h : Reachable st) (s1 s2 img : Nat)
    (hf1 : st.fences s1 = false) (hf2 : st.fences s2 = false)
    (hs1 : st.submittedImage s1 = some img)
    (hs2 : st.submittedImage s2 = some img) :
    s1 = s2 := by
  have hinv := reachable_engineInv st h
  have e1 := hinv s1 img hf1 hs1
  have e2 := hinv s2 img hf2 hs2
  rw [e1] at e2
  exact Option.some.inj e2

/-- Witness for C3: the state after one successful frame from the initial
state is reachable, has slot 0's fence unsignalled with its submission
targeting image 0, and the theorem applies there. -/
theorem imagesInFlight_mutual_exclusion_witness :
    (drawFrame initState (.success 0) .success).1.fences 0 = false ∧
    (drawFrame initState (.success 0) .success).1.submittedImage 0 = some 0 ∧
    (0 : Nat) = 0 :=
  ⟨rfl, rfl,
    imagesInFlight_mutual_exclusion
      (drawFrame initState (.success 0) .success).1
      (Reachable.draw initState (.success 0) .success Reachable.init)
      0 0 0 rfl rfl rfl rfl⟩

end VulkanEngine
